import Mathlib

/-
Verification of the campus-events listing and registration logic.

The embedded code comes from:
- the events listing page (src/unnamed/part_001): catalog load, registration
  and favorite toggles, calendar month grid, search/category filter;
- the event details page (src/src/pages/EventDetails.tsx): admin edit and
  comment submission.

Modelling conventions:
- JS strings are Lean `String` (compared as lists of characters);
- timestamps are `Int` (ISO-8601 UTC strings compare lexicographically iff
  chronologically, so an integer time value is a faithful order model);
- attendee counts and capacities are `Nat` (database count aggregates are
  non-negative; `Nat` truncated subtraction coincides with the source's
  `Math.max(0, c - 1)` flooring);
- `Set<string>` is `Finset String` (same add/delete/has semantics);
- each async handler becomes a pure function taking the current state, the
  authenticated user (`Option String`) and the outcome of the remote call
  (`remoteOk : Bool`), returning the new state, the list of remote mutations
  it issued, and the toast it showed (identified by its title or message).
-/

namespace CampusConnect

/-- Category join payload `event_categories(name, color)` selected with each
event (src/unnamed/part_001, lines 27–30). -/
structure CategoryInfo where
  name : String
  color : String
deriving DecidableEq, Repr

/-- The `Event` interface of the listing page (src/unnamed/part_001,
lines 14–31). Optional fields are `Option`; `attendee_count` is the
client-computed annotation. -/
structure Event where
  id : String
  title : String
  description : String
  start_date : Int
  end_date : Int
  location : String
  image_url : Option String
  max_attendees : Option Nat
  organizer_id : String
  category_id : Option String
  tags : Option (List String)
  attendee_count : Option Nat
  event_categories : Option CategoryInfo
deriving DecidableEq, Repr

/-- The listing page's local state relevant to the claims: the loaded event
list and the two membership sets (src/unnamed/part_001, lines 46, 54–55). -/
structure IndexState where
  events : List Event
  registeredEvents : Finset String
  favoriteEvents : Finset String
deriving DecidableEq

/-- A remote mutation issued against the store by a toggle handler. -/
inductive RemoteCall where
  | insertAttendee (eventId userId : String)
  | deleteAttendee (eventId userId : String)
  | insertFavorite (eventId userId : String)
  | deleteFavorite (eventId userId : String)
deriving DecidableEq, Repr

/-- Result of one toggle-handler invocation: the new local state, the remote
mutations attempted, and the toast title shown. -/
structure ToggleResult where
  state : IndexState
  calls : List RemoteCall
  toast : String
deriving DecidableEq

/-- JS `x || 0` applied to a possibly-absent count (`undefined` and `0` both
yield `0`, which `Option.getD`-like matching reproduces on `Nat`). -/
def countOrZero : Option Nat → Nat
  | none => 0
  | some n => n

/-- The guard `maxAttendees && currentCount >= maxAttendees`
(src/unnamed/part_001, line 164). JS truthiness: `undefined` and `0` are
falsy, so a capacity of `0` disables the check. -/
def capacityFull (maxAttendees : Option Nat) (currentCount : Nat) : Bool :=
  match maxAttendees with
  | none => false
  | some m => m != 0 && decide (currentCount ≥ m)

/-- The local count patch on unregister (src/unnamed/part_001, line 193):
`attendee_count: Math.max(0, (event.attendee_count || 0) - 1)`. `Nat`
subtraction truncates at 0, which is exactly the `Math.max(0, ·)` floor. -/
def decCount (e : Event) : Event :=
  { e with attendee_count := some (countOrZero e.attendee_count - 1) }

/-- The local count patch on register (src/unnamed/part_001, line 212):
`attendee_count: (event.attendee_count || 0) + 1`. -/
def incCount (e : Event) : Event :=
  { e with attendee_count := some (countOrZero e.attendee_count + 1) }

/-- Embeds `handleRegisterEvent` (src/unnamed/part_001, lines 152–229).
Control flow in source order: auth guard, capacity guard, `isRegistered`
membership test, then delete/insert with the local patch applied only after
the remote call succeeds; a remote error is caught and leaves state as is. -/
def handleRegisterEvent (user : Option String) (remoteOk : Bool) (s : IndexState)
    (eventId : String) (maxAttendees : Option Nat) (currentCount : Nat) : ToggleResult :=
  match user with
  | none => ⟨s, [], "Authentication required"⟩
  | some uid =>
    if capacityFull maxAttendees currentCount then
      ⟨s, [], "Event is full"⟩
    else if eventId ∈ s.registeredEvents then
      if remoteOk then
        ⟨{ events := s.events.map (fun e => if e.id == eventId then decCount e else e),
           registeredEvents := s.registeredEvents.erase eventId,
           favoriteEvents := s.favoriteEvents },
         [.deleteAttendee eventId uid], "Unregistered"⟩
      else ⟨s, [.deleteAttendee eventId uid], "Error"⟩
    else
      if remoteOk then
        ⟨{ events := s.events.map (fun e => if e.id == eventId then incCount e else e),
           registeredEvents := insert eventId s.registeredEvents,
           favoriteEvents := s.favoriteEvents },
         [.insertAttendee eventId uid], "Registered"⟩
      else ⟨s, [.insertAttendee eventId uid], "Error"⟩

/-- Embeds `handleToggleFavorite` (src/unnamed/part_001, lines 231–288):
same toggle pattern as registration but with no capacity guard and no event
list patch. -/
def handleToggleFavorite (user : Option String) (remoteOk : Bool) (s : IndexState)
    (eventId : String) : ToggleResult :=
  match user with
  | none => ⟨s, [], "Authentication required"⟩
  | some uid =>
    if eventId ∈ s.favoriteEvents then
      if remoteOk then
        ⟨{ events := s.events,
           registeredEvents := s.registeredEvents,
           favoriteEvents := s.favoriteEvents.erase eventId },
         [.deleteFavorite eventId uid], "Removed from favorites"⟩
      else ⟨s, [.deleteFavorite eventId uid], "Error"⟩
    else
      if remoteOk then
        ⟨{ events := s.events,
           registeredEvents := s.registeredEvents,
           favoriteEvents := insert eventId s.favoriteEvents },
         [.insertFavorite eventId uid], "Added to favorites"⟩
      else ⟨s, [.insertFavorite eventId uid], "Error"⟩

/-- The card's call site (src/unnamed/part_001, line 585):
`handleRegisterEvent(event.id, event.max_attendees, event.attendee_count)`,
where the rendered event supplies capacity and displayed count (the handler's
default `currentCount = 0` covers an absent count). -/
def toggleFromCard (user : Option String) (remoteOk : Bool) (s : IndexState)
    (eventId : String) : ToggleResult :=
  match s.events.find? (fun e => e.id == eventId) with
  | none => handleRegisterEvent user remoteOk s eventId none 0
  | some e => handleRegisterEvent user remoteOk s eventId e.max_attendees (countOrZero e.attendee_count)

/-- A baseline event used to build concrete test states. -/
def baseEvent : Event :=
  { id := "e1", title := "Tech Talk", description := "compilers and coffee",
    start_date := 0, end_date := 10, location := "Hall A", image_url := none,
    max_attendees := none, organizer_id := "o1", category_id := none,
    tags := none, attendee_count := none, event_categories := none }

/-- State in which user u1 is registered for event e1, which is exactly at
its capacity of 5. -/
def fullRegisteredState : IndexState :=
  { events := [{ baseEvent with max_attendees := some 5, attendee_count := some 5 }],
    registeredEvents := {"e1"}, favoriteEvents := ∅ }

/-- State in which event e1 has capacity 2, displayed count 1, and the user
is not registered: one free slot. -/
def boundaryState : IndexState :=
  { events := [{ baseEvent with max_attendees := some 2, attendee_count := some 1 }],
    registeredEvents := ∅, favoriteEvents := ∅ }

/-- State in which event e1 has a stored capacity of 0 and displayed count 0,
and the user is not registered. -/
def zeroCapState : IndexState :=
  { events := [{ baseEvent with max_attendees := some 0, attendee_count := some 0 }],
    registeredEvents := ∅, favoriteEvents := ∅ }

/-- Field-by-field agreement of two events on everything except
`attendee_count`, together with full agreement when the id differs from the
toggled event. This is the frame relation a registration toggle preserves. -/
def frameRel (eventId : String) (e e2 : Event) : Prop :=
  e2.id = e.id ∧ e2.title = e.title ∧ e2.description = e.description ∧
  e2.start_date = e.start_date ∧ e2.end_date = e.end_date ∧
  e2.location = e.location ∧ e2.image_url = e.image_url ∧
  e2.max_attendees = e.max_attendees ∧ e2.organizer_id = e.organizer_id ∧
  e2.category_id = e.category_id ∧ e2.tags = e.tags ∧
  e2.event_categories = e.event_categories ∧
  (e.id ≠ eventId → e2 = e)

lemma forall2_self {α : Type} {R : α → α → Prop} (h : ∀ a, R a a) :
    ∀ l : List α, List.Forall₂ R l l
  | [] => List.Forall₂.nil
  | a :: t => List.Forall₂.cons (h a) (forall2_self h t)

lemma forall2_map_self {α : Type} {R : α → α → Prop} {f : α → α}
    (h : ∀ a, R a (f a)) : ∀ l : List α, List.Forall₂ R l (l.map f)
  | [] => List.Forall₂.nil
  | a :: t => List.Forall₂.cons (h a) (forall2_map_self h t)

lemma frameRel_refl (eventId : String) (e : Event) : frameRel eventId e e := by
  simp [frameRel]

lemma frameRel_decCount (eventId : String) (e : Event) :
    frameRel eventId e (if e.id == eventId then decCount e else e) := by
  by_cases h : e.id = eventId
  · simp [h, frameRel, decCount]
  · simp [h, frameRel]

lemma frameRel_incCount (eventId : String) (e : Event) :
    frameRel eventId e (if e.id == eventId then incCount e else e) := by
  by_cases h : e.id = eventId
  · simp [h, frameRel, incCount]
  · simp [h, frameRel]

/-- JS `String.prototype.toLowerCase` on the character list of a string. -/
def jsLower (s : String) : List Char :=
  s.toList.map Char.toLower

/-- Prefix test used to implement substring containment. -/
def strStartsWith : List Char → List Char → Bool
  | [], _ => true
  | _ :: _, [] => false
  | n :: ns, h :: hs => n == h && strStartsWith ns hs

/-- JS `hay.includes(needle)`: some suffix of `hay` starts with `needle`. -/
def strContains : List Char → List Char → Bool
  | [], needle => needle.isEmpty
  | h :: hs, needle => strStartsWith needle (h :: hs) || strContains hs needle

/-- Case-insensitive containment, the search relation of the claim: both
sides lowercased, then substring containment. -/
def containsCI (hay needle : String) : Prop :=
  strContains (jsLower hay) (jsLower needle) = true

/-- The search half of the filter predicate (src/unnamed/part_001,
lines 380–381): title or description contains the lowercased search term. -/
def matchesSearch (e : Event) (searchTerm : String) : Bool :=
  strContains (jsLower e.title) (jsLower searchTerm) ||
  strContains (jsLower e.description) (jsLower searchTerm)

/-- The category half of the filter predicate (src/unnamed/part_001,
line 383): `selectedCategory === "all" || event.category_id === selectedCategory`.
An absent category id compares unequal to any selected id. -/
def matchesCategory (e : Event) (selectedCategory : String) : Bool :=
  selectedCategory == "all" || e.category_id == some selectedCategory

/-- Embeds `filteredEvents` (src/unnamed/part_001, lines 379–386). -/
def filteredEvents (events : List Event) (searchTerm selectedCategory : String) :
    List Event :=
  events.filter (fun e => matchesSearch e searchTerm && matchesCategory e selectedCategory)

lemma strContains_nil (hay : List Char) : strContains hay [] = true := by
  cases hay <;> simp [strContains, strStartsWith, List.isEmpty]

/-- C1. The claim says a call not rejected by the spec's capacity condition
(which requires the user to be NOT registered) always mutates the Attendance
row, so in particular a registered user at a full event is unregistered. The
code checks `maxAttendees && currentCount >= maxAttendees` before reading
`isRegistered`, so with user u1 registered for event e1 at capacity 5 with
displayed count 5, the click is rejected with the "Event is full" toast, no
remote delete is issued, and the state is unchanged — contradicting the
claim (and the card UI in the same file, which enables the button and labels
it Unregister in exactly this state). -/
theorem register_handler_rejects_unregister_at_full_event :
    toggleFromCard (some "u1") true fullRegisteredState "e1" =
      ⟨fullRegisteredState, [], "Event is full"⟩ ∧
    "e1" ∈ fullRegisteredState.registeredEvents := by
  decide

/-- C2 counterexample. The claim quantifies over every event "with a set
capacity". A stored capacity of 0 is a set capacity (the admin edit form
parses the submitted string "0" to the number 0), the displayed count 0
equals it, and the user is not registered — yet the code registers: JS
truthiness makes `maxAttendees && ...` skip the guard when the capacity is
0, so a remote insert is issued and membership changes. -/
theorem capacity_zero_not_rejected :
    (handleRegisterEvent (some "u1") true zeroCapState "e1" (some 0) 0).toast =
      "Registered" ∧
    (handleRegisterEvent (some "u1") true zeroCapState "e1" (some 0) 0).calls =
      [.insertAttendee "e1" "u1"] ∧
    (handleRegisterEvent (some "u1") true zeroCapState "e1" (some 0) 0).state
      ≠ zeroCapState := by
  decide

/-- C2 amended. For every event with a set nonzero capacity, if the user is
not registered and the current count equals or exceeds the capacity, the
toggle rejects with the "Event is full" notification, issues no remote
mutation, and leaves the whole local state (membership sets and displayed
counts) unchanged. -/
theorem toggleRegistration_rejects_when_full (u : String) (ok : Bool)
    (s : IndexState) (eventId : String) (m cnt : Nat)
    (_hreg : eventId ∉ s.registeredEvents) (hm : m ≠ 0) (hcnt : m ≤ cnt) :
    handleRegisterEvent (some u) ok s eventId (some m) cnt =
      ⟨s, [], "Event is full"⟩ := by
  have hfull : capacityFull (some m) cnt = true := by
    show (m != 0 && decide (cnt ≥ m)) = true
    rw [Bool.and_eq_true, bne_iff_ne, decide_eq_true_iff]
    exact ⟨hm, hcnt⟩
  simp [handleRegisterEvent, hfull]

/-- Witness for the C2 theorem at a concrete full event: capacity 3, count 3,
user u1 not registered. -/
theorem toggleRegistration_rejects_when_full_witness :
    "e1" ∉ boundaryState.registeredEvents ∧
    handleRegisterEvent (some "u1") true boundaryState "e1" (some 3) 3 =
      ⟨boundaryState, [], "Event is full"⟩ :=
  ⟨by decide,
   toggleRegistration_rejects_when_full "u1" true boundaryState "e1" 3 3
     (by decide) (by decide) (by decide)⟩

/-- C3. The claim says two sequential awaited toggles (both remote calls
succeeding) restore the original registration state and count. With event e1
at capacity 2, displayed count 1, user not registered: the first toggle
registers (count becomes 2, the capacity), and the second toggle — intended
to unregister — is rejected by the capacity guard, which runs before the
`isRegistered` test. The user is left registered, so the double toggle is
not the identity. -/
theorem double_toggle_not_identity_at_capacity_boundary :
    (toggleFromCard (some "u1") true
        ((toggleFromCard (some "u1") true boundaryState "e1").state) "e1").toast =
      "Event is full" ∧
    "e1" ∈ (toggleFromCard (some "u1") true
        ((toggleFromCard (some "u1") true boundaryState "e1").state) "e1").state.registeredEvents ∧
    "e1" ∉ boundaryState.registeredEvents := by
  decide

/-- C4. For both toggles, when the remote mutation returns an error the local
state — registration set, favorite set, event list with its displayed
counts — is exactly as it was before the call: the optimistic patch is
applied only after success is confirmed. -/
theorem toggle_state_unchanged_on_remote_error (user : Option String)
    (s : IndexState) (eventId : String) (cap : Option Nat) (cnt : Nat) :
    (handleRegisterEvent user false s eventId cap cnt).state = s ∧
    (handleToggleFavorite user false s eventId).state = s := by
  constructor
  · cases user with
    | none => rfl
    | some uid =>
      unfold handleRegisterEvent
      by_cases h1 : capacityFull cap cnt <;>
        by_cases h2 : eventId ∈ s.registeredEvents <;> simp [h1, h2]
  · cases user with
    | none => rfl
    | some uid =>
      unfold handleToggleFavorite
      by_cases h : eventId ∈ s.favoriteEvents <;> simp [h]

/-- C9 frame property. A registration toggle rewrites the event list
pointwise so that every event keeps all fields except possibly
`attendee_count`, and events whose id differs from the toggled one are
unchanged entirely; it never touches the favorite set. A favorite toggle
never changes the event list (hence no displayed count) or the registration
set; it changes only the favorite set. -/
theorem toggle_frame_property (user : Option String) (ok : Bool)
    (s : IndexState) (eventId : String) (cap : Option Nat) (cnt : Nat) :
    List.Forall₂ (frameRel eventId) s.events
      (handleRegisterEvent user ok s eventId cap cnt).state.events ∧
    (handleRegisterEvent user ok s eventId cap cnt).state.favoriteEvents =
      s.favoriteEvents ∧
    (handleToggleFavorite user ok s eventId).state.events = s.events ∧
    (handleToggleFavorite user ok s eventId).state.registeredEvents =
      s.registeredEvents := by
  refine ⟨?_, ?_, ?_, ?_⟩
  · cases user with
    | none => exact forall2_self (frameRel_refl eventId) s.events
    | some uid =>
      unfold handleRegisterEvent
      by_cases h1 : capacityFull cap cnt <;>
        by_cases h2 : eventId ∈ s.registeredEvents <;> cases ok <;>
        simp only [h1, h2, if_true, if_false, Bool.false_eq_true, ite_true, ite_false] <;>
        first
          | exact forall2_self (frameRel_refl eventId) s.events
          | exact forall2_map_self (frameRel_decCount eventId) s.events
          | exact forall2_map_self (frameRel_incCount eventId) s.events
  · cases user with
    | none => rfl
    | some uid =>
      unfold handleRegisterEvent
      by_cases h1 : capacityFull cap cnt <;>
        by_cases h2 : eventId ∈ s.registeredEvents <;> cases ok <;> simp [h1, h2]
  · cases user with
    | none => rfl
    | some uid =>
      unfold handleToggleFavorite
      by_cases h : eventId ∈ s.favoriteEvents <;> cases ok <;> simp [h]
  · cases user with
    | none => rfl
    | some uid =>
      unfold handleToggleFavorite
      by_cases h : eventId ∈ s.favoriteEvents <;> cases ok <;> simp [h]

/-- Witness for the C9 frame property at a concrete state and toggle. -/
theorem toggle_frame_property_witness :
    (handleToggleFavorite (some "u1") true boundaryState "e1").state.events =
      boundaryState.events :=
  (toggle_frame_property (some "u1") true boundaryState "e1" none 0).2.2.1

/-- A second concrete event, categorised, for exercising the filter. -/
def artEvent : Event :=
  { baseEvent with
    id := "e2", title := "Art Fair", description := "paintings and prints",
    category_id := some "c1" }

instance (hay needle : String) : Decidable (containsCI hay needle) :=
  inferInstanceAs (Decidable (_ = _))

/-- C6. The filter retains an event iff its title or description contains the
search text case-insensitively and the selector is "all" or equals the
event's category id. Consequently an event with an absent category is
excluded whenever a specific category is selected, and an empty search text
retains exactly the events passing the category test. -/
theorem filter_retains_iff (evts : List Event) (st sel : String) (e : Event) :
    (e ∈ filteredEvents evts st sel ↔
      e ∈ evts ∧ (containsCI e.title st ∨ containsCI e.description st) ∧
        (sel = "all" ∨ e.category_id = some sel)) ∧
    (e.category_id = none → sel ≠ "all" → e ∉ filteredEvents evts st sel) ∧
    (st = "" → (e ∈ filteredEvents evts st sel ↔
      e ∈ evts ∧ (sel = "all" ∨ e.category_id = some sel))) := by
  have hmain : e ∈ filteredEvents evts st sel ↔
      e ∈ evts ∧ (containsCI e.title st ∨ containsCI e.description st) ∧
        (sel = "all" ∨ e.category_id = some sel) := by
    simp [filteredEvents, List.mem_filter, matchesSearch, matchesCategory,
      containsCI, Bool.or_eq_true, beq_iff_eq]
  refine ⟨hmain, ?_, ?_⟩
  · intro hnone hsel hmem
    rcases (hmain.mp hmem).2.2 with h | h
    · exact hsel h
    · rw [hnone] at h
      exact Option.noConfusion h
  · intro hst
    subst hst
    rw [hmain]
    have hempty : jsLower "" = [] := rfl
    simp [containsCI, hempty, strContains_nil]

/-- Witness for the C6 filter characterisation: a mixed-case search finds
only the matching title, and the uncategorised event is dropped when a
specific category is selected. -/
theorem filter_retains_iff_witness :
    artEvent ∈ filteredEvents [baseEvent, artEvent] "aRt" "all" ∧
    baseEvent ∉ filteredEvents [baseEvent, artEvent] "aRt" "all" ∧
    baseEvent ∉ filteredEvents [baseEvent, artEvent] "" "c1" := by
  refine ⟨?_, ?_, ?_⟩
  · exact (filter_retains_iff [baseEvent, artEvent] "aRt" "all" artEvent).1.mpr
      ⟨by decide, Or.inl (by decide), Or.inl rfl⟩
  · intro hmem
    have h := (filter_retains_iff [baseEvent, artEvent] "aRt" "all" baseEvent).1.mp hmem
    revert h
    decide
  · exact (filter_retains_iff [baseEvent, artEvent] "" "c1" baseEvent).2.1 rfl (by decide)

/-- The month grid built by `renderCalendarView` (src/unnamed/part_001,
lines 290–298), with calendar days modelled as integer day numbers: the
month's days are `eachDayOfInterval(monthStart, monthEnd)` =
`monthStart, ..., monthStart + monthLen - 1`, preceded by the padding days
`monthStart.getTime() - (startPadding - i) * 24*60*60*1000` for
`i < startPadding`, i.e. `monthStart - (startPadding - i)` in day numbers
(`startPadding = getDay(monthStart)`, the weekday index of the first). -/
def gridDays (monthStart : Int) (startPadding monthLen : Nat) : List Int :=
  ((List.range startPadding).map fun i : Nat => monthStart - ((startPadding : Int) - (i : Int))) ++
  ((List.range monthLen).map fun i : Nat => monthStart + (i : Int))

/-- Embeds `getEventsForDay` (src/unnamed/part_001, lines 300–304):
`filteredEvents.filter(event => isSameDay(parseISO(event.start_date), day))`.
`dayOf` abstracts `parseISO` followed by taking the calendar day, so
`isSameDay` is equality of day numbers; the event's end date is not
consulted. -/
def getEventsForDay (dayOf : Int → Int) (evts : List Event) (day : Int) :
    List Event :=
  evts.filter (fun e => dayOf e.start_date == day)

lemma gridDays_eq (m : Int) (p len : Nat) :
    gridDays m p len =
      (List.range (p + len)).map (fun i : Nat => m - (p : Int) + (i : Int)) := by
  unfold gridDays
  rw [List.range_add, List.map_append, List.map_map]
  congr 1
  · apply List.map_congr_left
    intro i _
    omega
  · apply List.map_congr_left
    intro i _
    simp only [Function.comp_apply]
    omega

lemma gridDays_nodup (m : Int) (p len : Nat) : (gridDays m p len).Nodup := by
  rw [gridDays_eq]
  refine List.Nodup.map ?_ (List.nodup_range (p + len))
  intro a b hab
  simp only at hab
  omega

lemma filter_eq_singleton {p : Int → Bool} {a : Int} :
    ∀ {l : List Int}, l.Nodup → a ∈ l → (∀ x, p x = true ↔ x = a) →
      l.filter p = [a] := by
  intro l
  induction l with
  | nil => intro _ h _; exact absurd h (List.not_mem_nil a)
  | cons b t ih =>
    intro hnd hmem hp
    rw [List.nodup_cons] at hnd
    by_cases hb : p b = true
    · have hba : b = a := (hp b).mp hb
      subst hba
      rw [List.filter_cons_of_pos hb]
      have hnil : t.filter p = [] := by
        rw [List.filter_eq_nil_iff]
        intro x hx hpx
        exact hnd.1 (((hp x).mp hpx) ▸ hx)
      rw [hnil]
    · have hba : b ≠ a := fun h => hb ((hp b).mpr h)
      have hat : a ∈ t := by
        rcases List.mem_cons.mp hmem with h | h
        · exact absurd h.symm hba
        · exact h
      rw [List.filter_cons_of_neg hb]
      exact ih hnd.2 hat hp

/-- C5. Every filtered event whose start day lies in the displayed grid
appears in exactly one cell: the one whose day number equals the event's
start day (the end date is never consulted by `getEventsForDay`). The grid
is the month's `monthLen` days preceded by `startPadding` leading padding
days, so the first of the month sits at index `startPadding` — its weekday
column in the 7-wide grid. -/
theorem calendar_event_in_exactly_one_cell (dayOf : Int → Int)
    (evts : List Event) (st sel : String) (monthStart : Int)
    (startPadding monthLen : Nat) (e : Event)
    (hmem : e ∈ filteredEvents evts st sel)
    (hin : dayOf e.start_date ∈ gridDays monthStart startPadding monthLen)
    (hlen : 0 < monthLen) (_hpad : startPadding < 7) :
    ((gridDays monthStart startPadding monthLen).filter
        (fun d => decide (e ∈ getEventsForDay dayOf (filteredEvents evts st sel) d)))
      = [dayOf e.start_date] ∧
    (gridDays monthStart startPadding monthLen).length = startPadding + monthLen ∧
    (gridDays monthStart startPadding monthLen)[startPadding]? = some monthStart := by
  refine ⟨?_, ?_, ?_⟩
  · apply filter_eq_singleton (gridDays_nodup monthStart startPadding monthLen) hin
    intro x
    simp only [decide_eq_true_eq, getEventsForDay, List.mem_filter, hmem,
      true_and, beq_iff_eq]
    exact eq_comm
  · simp [gridDays]
  · unfold gridDays
    rw [List.getElem?_append_right (by simp)]
    rcases Nat.exists_eq_add_of_lt hlen with ⟨k, hk⟩
    subst hk
    simp [List.range_succ_eq_map]

/-- Witness for the C5 calendar bucketing theorem: March-like month of 31
days starting on day number 100 with 3 padding days, one filtered event
starting on day 105. -/
theorem calendar_event_in_exactly_one_cell_witness :
    ((gridDays 100 3 31).filter
        (fun d => decide ({ baseEvent with start_date := 105 } ∈
          getEventsForDay (fun t => t) (filteredEvents [{ baseEvent with start_date := 105 }] "" "all") d)))
      = [105] ∧
    (gridDays 100 3 31).length = 3 + 31 ∧
    (gridDays 100 3 31)[3]? = some 100 :=
  calendar_event_in_exactly_one_cell (fun t => t)
    [{ baseEvent with start_date := 105 }] "" "all" 100 3 31
    { baseEvent with start_date := 105 }
    (by decide) (by decide) (by decide) (by decide)

/-- A raw row returned by the catalog query (src/unnamed/part_001,
lines 87–95): `select *, event_attendees(count), event_categories(name, color)`.
The `event_attendees` aggregate arrives as a list of counts (the code reads
`[0]?.count`). -/
structure EventRow where
  id : String
  title : String
  description : String
  start_date : Int
  end_date : Int
  location : String
  image_url : Option String
  max_attendees : Option Nat
  organizer_id : String
  category_id : Option String
  tags : Option (List String)
  event_attendees : List Nat
  event_categories : Option CategoryInfo
deriving DecidableEq, Repr

/-- The per-row annotation (src/unnamed/part_001, lines 99–102):
`{ ...event, attendee_count: event.event_attendees?.[0]?.count || 0 }`.
A missing aggregate and a zero count both produce 0. -/
def annotateRow (r : EventRow) : Event :=
  { id := r.id, title := r.title, description := r.description,
    start_date := r.start_date, end_date := r.end_date, location := r.location,
    image_url := r.image_url, max_attendees := r.max_attendees,
    organizer_id := r.organizer_id, category_id := r.category_id,
    tags := r.tags, attendee_count := some (countOrZero r.event_attendees.head?),
    event_categories := r.event_categories }

/-- Start-time order used by `.order('start_date', { ascending: true })`. -/
def rowLe (a b : EventRow) : Prop := a.start_date ≤ b.start_date

instance : DecidableRel rowLe := fun a b => Int.decLe a.start_date b.start_date

instance : IsTotal EventRow rowLe := ⟨fun a b => Int.le_total a.start_date b.start_date⟩

instance : IsTrans EventRow rowLe := ⟨fun _ _ _ h1 h2 => le_trans h1 h2⟩

/-- Embeds the catalog load of `fetchData` (src/unnamed/part_001,
lines 87–104): the store filters with `.gte('end_date', now)` and orders by
start date ascending, then the client maps the count annotation over the
result. The store's filter and order are modelled as `List.filter` and a
sort with respect to `rowLe`. -/
def fetchEvents (rows : List EventRow) (now : Int) : List Event :=
  (List.insertionSort rowLe (rows.filter (fun r => decide (now ≤ r.end_date)))).map
    annotateRow

/-- C7. The catalog load returns exactly the annotations of the rows whose
end timestamp is at or after `now` (so a row ending exactly at `now` is
included and one ending strictly before is excluded), the output is sorted
ascending by start time, and each qualifying row appears annotated with its
computed attendee count (`some 0` when no aggregate is present) and with its
category payload passed through. -/
theorem catalog_load_spec (rows : List EventRow) (now : Int) :
    (∀ x, x ∈ fetchEvents rows now ↔
      ∃ r, r ∈ rows ∧ now ≤ r.end_date ∧ x = annotateRow r) ∧
    List.Sorted (fun a b : Event => a.start_date ≤ b.start_date)
      (fetchEvents rows now) ∧
    (∀ r, r ∈ rows → now ≤ r.end_date →
      annotateRow r ∈ fetchEvents rows now ∧
      (annotateRow r).attendee_count = some (countOrZero r.event_attendees.head?) ∧
      (annotateRow r).event_categories = r.event_categories) := by
  have hmem : ∀ x, x ∈ fetchEvents rows now ↔
      ∃ r, r ∈ rows ∧ now ≤ r.end_date ∧ x = annotateRow r := by
    intro x
    unfold fetchEvents
    rw [List.mem_map]
    constructor
    · rintro ⟨r, hr, hx⟩
      have hr2 := (List.perm_insertionSort rowLe _).mem_iff.mp hr
      rw [List.mem_filter] at hr2
      exact ⟨r, hr2.1, by simpa using hr2.2, hx.symm⟩
    · rintro ⟨r, hr, hend, hx⟩
      refine ⟨r, ?_, hx.symm⟩
      exact (List.perm_insertionSort rowLe _).mem_iff.mpr
        (List.mem_filter.mpr ⟨hr, by simpa using hend⟩)
  refine ⟨hmem, ?_, ?_⟩
  · unfold fetchEvents
    exact List.Pairwise.map annotateRow (fun a b h => h)
      (List.sorted_insertionSort rowLe _)
  · intro r hr hend
    exact ⟨(hmem (annotateRow r)).mpr ⟨r, hr, hend, rfl⟩, rfl, rfl⟩

/-- A concrete catalog row ending exactly at the load time. -/
def rowNow : EventRow :=
  { id := "e1", title := "Tech Talk", description := "compilers and coffee",
    start_date := 0, end_date := 50, location := "Hall A", image_url := none,
    max_attendees := none, organizer_id := "o1", category_id := none,
    tags := none, event_attendees := [], event_categories := none }

/-- Witness for the C7 catalog theorem: a row ending exactly at the load
time is included and carries the zero count annotation. -/
theorem catalog_load_spec_witness :
    annotateRow rowNow ∈ fetchEvents [rowNow] 50 ∧
    (annotateRow rowNow).attendee_count = some 0 :=
  ⟨((catalog_load_spec [rowNow] 50).2.2 rowNow (by decide) (by decide)).1,
   ((catalog_load_spec [rowNow] 50).2.2 rowNow (by decide) (by decide)).2.1⟩

/-- Profile role (src/src/pages/EventDetails.tsx, line 445). -/
inductive Role where
  | admin
  | user
deriving DecidableEq, Repr

/-- The profile loaded by the details page (src/src/pages/EventDetails.tsx,
lines 443–447). -/
structure DProfile where
  full_name : String
  role : Role
  user_id : String
deriving DecidableEq, Repr

/-- The `Event` interface of the details page (src/src/pages/EventDetails.tsx,
lines 413–425 in the second component; string dates because the edit form
round-trips `datetime-local` strings). -/
structure DEvent where
  id : String
  title : String
  description : String
  start_date : String
  end_date : String
  location : String
  image_url : Option String
  max_attendees : Option Int
  tags : Option (List String)
  video_urls : Option (List String)
  organizer_id : String
deriving DecidableEq, Repr

/-- A discussion row (src/src/pages/EventDetails.tsx, lines 27–36), with the
joined author profile flattened into two fields. -/
structure Discussion where
  id : String
  content : String
  user_id : String
  created_at : Int
  profiles_full_name : String
  profiles_role : String
deriving DecidableEq, Repr

/-- The details page's local state touched by the embedded handlers
(src/src/pages/EventDetails.tsx, lines 452–459): the event, the attendee
roster (opaque payload), the discussion thread, and the edit flag. -/
structure DetailState where
  event : Option DEvent
  attendees : List String
  discussions : List Discussion
  isEditing : Bool
deriving DecidableEq

/-- The edit form state (src/src/pages/EventDetails.tsx, lines 460–469):
every field is a string, empty when unset. -/
structure EditForm where
  title : String
  description : String
  location : String
  start_date : String
  end_date : String
  max_attendees : String
  image_url : String
  tags : String
deriving DecidableEq, Repr

/-- The `updateData` payload sent to the store on edit
(src/src/pages/EventDetails.tsx, lines 694–703). -/
structure UpdateData where
  title : String
  description : String
  location : String
  start_date : String
  end_date : String
  max_attendees : Option Int
  image_url : Option String
  tags : Option (List String)
deriving DecidableEq, Repr

/-- A remote mutation issued by the details page handlers. -/
inductive DetailRemoteCall where
  | updateEvent (eventId : String) (data : UpdateData)
  | insertDiscussion (eventId userId content : String)
deriving DecidableEq, Repr

/-- JS `String.prototype.trim` on a character list: strip whitespace from
both ends. -/
def jsTrimList (l : List Char) : List Char :=
  ((l.dropWhile Char.isWhitespace).reverse.dropWhile Char.isWhitespace).reverse

/-- JS `s.trim()`. -/
def jsTrim (s : String) : String :=
  String.mk (jsTrimList s.toList)

/-- Tag processing on edit (src/src/pages/EventDetails.tsx, lines 689–692):
split on commas, trim each piece, drop empties. -/
def processTags (s : String) : List String :=
  ((s.splitOn ",").map jsTrim).filter (fun t => t.length > 0)

/-- Builds `updateData` (src/src/pages/EventDetails.tsx, lines 694–703).
`parseIntJS` abstracts JS `parseInt`; JS truthiness on strings is
non-emptiness and on arrays `length > 0`. -/
def mkUpdateData (parseIntJS : String → Int) (f : EditForm) : UpdateData :=
  { title := f.title, description := f.description, location := f.location,
    start_date := f.start_date, end_date := f.end_date,
    max_attendees := if f.max_attendees ≠ "" then some (parseIntJS f.max_attendees) else none,
    image_url := if f.image_url ≠ "" then some f.image_url else none,
    tags := if (processTags f.tags).length > 0 then some (processTags f.tags) else none }

/-- The local patch `setEvent({ ...event, ...updateData })`
(src/src/pages/EventDetails.tsx, line 713): the spread overwrites exactly the
eight submitted fields and keeps id, video_urls and organizer_id. -/
def applyUpdate (e : DEvent) (u : UpdateData) : DEvent :=
  { e with
    title := u.title, description := u.description,
    location := u.location, start_date := u.start_date, end_date := u.end_date,
    max_attendees := u.max_attendees, image_url := u.image_url, tags := u.tags }

/-- Result of a details page handler invocation. -/
structure DetailResult where
  state : DetailState
  calls : List DetailRemoteCall
  toast : String
deriving DecidableEq

/-- Embeds `handleEditEvent` (src/src/pages/EventDetails.tsx, lines 660–728).
Control flow in source order: admin guard, required-field guard (JS falsy =
empty string), date-order guard (`endDate <= startDate` on parsed dates,
abstracted by `parseDate`), then the remote update; the local state is
patched with the submitted values only after the update succeeds, with no
refetch. -/
def handleEditEvent (parseDate : String → Int) (parseIntJS : String → Int)
    (profile : Option DProfile) (remoteOk : Bool) (s : DetailState)
    (eventId : String) (f : EditForm) : DetailResult :=
  match s.event, profile with
  | none, _ => ⟨s, [], ""⟩
  | some _, none => ⟨s, [], ""⟩
  | some ev, some p =>
    if p.role ≠ Role.admin then ⟨s, [], ""⟩
    else if f.title = "" ∨ f.description = "" ∨ f.location = "" ∨
        f.start_date = "" ∨ f.end_date = "" then
      ⟨s, [], "Please fill in all required fields"⟩
    else if parseDate f.end_date ≤ parseDate f.start_date then
      ⟨s, [], "End date must be after start date"⟩
    else
      let u := mkUpdateData parseIntJS f
      if remoteOk then
        ⟨{ s with event := some (applyUpdate ev u), isEditing := false },
         [.updateEvent eventId u], "Event updated successfully"⟩
      else ⟨s, [.updateEvent eventId u], "Failed to update event"⟩

/-- Embeds `handleSubmitComment` (src/src/pages/EventDetails.tsx,
lines 595–630, identical to lines 123–158 of the first component). The
whitespace guard `if (!newComment.trim()) return` runs before anything else;
on success the input is cleared and `fetchDiscussions()` replaces the thread
with the server's copy, modelled by the `serverThread` parameter. On error
the state is untouched. The result's toast slot carries the remaining input
box content alongside the toast. -/
def handleSubmitComment (user : Option String) (remoteOk : Bool)
    (serverThread : List Discussion) (s : DetailState)
    (eventId newComment : String) : DetailResult × String :=
  if jsTrim newComment = "" then (⟨s, [], ""⟩, newComment)
  else
    match user with
    | none => (⟨s, [], ""⟩, newComment)
    | some uid =>
      if remoteOk then
        (⟨{ s with discussions := serverThread },
          [.insertDiscussion eventId uid (jsTrim newComment)],
          "Comment posted successfully"⟩, "")
      else
        (⟨s, [.insertDiscussion eventId uid (jsTrim newComment)],
          "Failed to post comment"⟩, newComment)

lemma jsTrim_eq_empty_of_all_whitespace (c : String)
    (h : ∀ x ∈ c.toList, x.isWhitespace) : jsTrim c = "" := by
  unfold jsTrim jsTrimList
  rw [List.dropWhile_eq_nil_iff.mpr h]
  rfl

/-- A concrete loaded event for the details page. -/
def detailEvent : DEvent :=
  { id := "e1", title := "Tech Talk", description := "compilers and coffee",
    start_date := "2025-03-01T10:00", end_date := "2025-03-01T12:00",
    location := "Hall A", image_url := none, max_attendees := none,
    tags := none, video_urls := none, organizer_id := "o1" }

/-- A concrete existing discussion row. -/
def detailDiscussion : Discussion :=
  { id := "d1", content := "hi", user_id := "u2", created_at := 1,
    profiles_full_name := "U Two", profiles_role := "user" }

/-- A concrete details page state with one event and an existing thread. -/
def detailState : DetailState :=
  { event := some detailEvent,
    attendees := ["u2"],
    discussions := [detailDiscussion],
    isEditing := true }

/-- C8. With an admin profile and a loaded event: a submission with a
missing required field or with the parsed end date at or before the parsed
start date is rejected — no store mutation is issued and the whole local
state is unchanged. A valid submission issues exactly one row update
carrying `updateData` and patches the local event with the submitted values
directly (the spread over the old event), leaving the attendee roster and
the discussion thread untouched, so derived fields are not recomputed. -/
theorem edit_event_validation_and_patch (parseDate parseIntJS : String → Int)
    (s : DetailState) (eventId : String) (f : EditForm) (ev : DEvent)
    (p : DProfile) (hev : s.event = some ev) (hrole : p.role = Role.admin) :
    ((f.title = "" ∨ f.description = "" ∨ f.location = "" ∨
        f.start_date = "" ∨ f.end_date = "" ∨
        parseDate f.end_date ≤ parseDate f.start_date) →
      ∀ ok, handleEditEvent parseDate parseIntJS (some p) ok s eventId f =
        ⟨s, [], (handleEditEvent parseDate parseIntJS (some p) ok s eventId f).toast⟩) ∧
    ((f.title ≠ "" ∧ f.description ≠ "" ∧ f.location ≠ "" ∧
        f.start_date ≠ "" ∧ f.end_date ≠ "" ∧
        parseDate f.start_date < parseDate f.end_date) →
      handleEditEvent parseDate parseIntJS (some p) true s eventId f =
        ⟨{ s with
            event := some (applyUpdate ev (mkUpdateData parseIntJS f)),
            isEditing := false },
          [.updateEvent eventId (mkUpdateData parseIntJS f)],
          "Event updated successfully"⟩) := by
  constructor
  · intro hbad ok
    unfold handleEditEvent
    rw [hev]
    simp only [hrole]
    rcases hbad with h | h | h | h | h | h
    · simp [h]
    · simp [h]
    · simp [h]
    · simp [h]
    · simp [h]
    · by_cases hreq : f.title = "" ∨ f.description = "" ∨ f.location = "" ∨
          f.start_date = "" ∨ f.end_date = ""
      · simp [hreq]
      · simp [hreq, h]
  · rintro ⟨h1, h2, h3, h4, h5, h6⟩
    unfold handleEditEvent
    rw [hev]
    simp [hrole, h1, h2, h3, h4, h5, not_le.mpr h6]

/-- Witness for the C8 edit theorem: the date-order rejection and a
successful patch, both at concrete inputs. The parse function reads the
digit after the last dash, so "2025-03-01T10:00"-style strings order by
that digit. -/
theorem edit_event_validation_and_patch_witness :
    handleEditEvent (fun d => d.length) (fun _ => 0) (some ⟨"Ada", Role.admin, "u1"⟩)
        true detailState "e1"
        { title := "T", description := "D", location := "L",
          start_date := "ab", end_date := "a", max_attendees := "",
          image_url := "", tags := "" } =
      ⟨detailState, [],
        (handleEditEvent (fun d => d.length) (fun _ => 0) (some ⟨"Ada", Role.admin, "u1"⟩)
          true detailState "e1"
          { title := "T", description := "D", location := "L",
            start_date := "ab", end_date := "a", max_attendees := "",
            image_url := "", tags := "" }).toast⟩ :=
  (edit_event_validation_and_patch (fun d => d.length) (fun _ => 0) detailState "e1"
      { title := "T", description := "D", location := "L",
        start_date := "ab", end_date := "a", max_attendees := "",
        image_url := "", tags := "" }
      detailEvent ⟨"Ada", Role.admin, "u1"⟩
      rfl rfl).1 (by right; right; right; right; right; decide) true

/-- C10. A comment whose content is empty or all whitespace performs no
remote insert and leaves the discussion thread (and all other local state)
unchanged. An accepted comment inserts exactly one discussion row whose
stored content is the submitted text trimmed of leading and trailing
whitespace, and on success the thread is replaced by the refetched server
copy and the input box is cleared. -/
theorem comment_submission_spec (user : Option String) (ok : Bool)
    (serverThread : List Discussion) (s : DetailState) (eventId c : String) :
    ((∀ x ∈ c.toList, x.isWhitespace) →
      handleSubmitComment user ok serverThread s eventId c = (⟨s, [], ""⟩, c)) ∧
    (∀ uid, jsTrim c ≠ "" → user = some uid →
      handleSubmitComment user ok serverThread s eventId c =
        (if ok then
          (⟨{ s with discussions := serverThread },
            [.insertDiscussion eventId uid (jsTrim c)],
            "Comment posted successfully"⟩, "")
         else
          (⟨s, [.insertDiscussion eventId uid (jsTrim c)],
            "Failed to post comment"⟩, c))) := by
  constructor
  · intro hws
    unfold handleSubmitComment
    rw [jsTrim_eq_empty_of_all_whitespace c hws]
    simp
  · intro uid hne huser
    subst huser
    unfold handleSubmitComment
    rw [if_neg hne]

/-- Witness for the C10 comment theorem: a whitespace-only comment is
dropped, and a padded comment is stored trimmed with the thread refetched. -/
theorem comment_submission_spec_witness :
    handleSubmitComment (some "u1") true [] detailState "e1" "  " =
      (⟨detailState, [], ""⟩, "  ") ∧
    handleSubmitComment (some "u1") true [] detailState "e1" " hi " =
      (⟨{ detailState with discussions := [] },
        [.insertDiscussion "e1" "u1" "hi"],
        "Comment posted successfully"⟩, "") := by
  constructor
  · exact (comment_submission_spec (some "u1") true [] detailState "e1" "  ").1
      (by decide)
  · have h := (comment_submission_spec (some "u1") true [] detailState "e1" " hi ").2
      "u1" (by decide) rfl
    simpa using h

end CampusConnect
